/-
Verification of the `scales` library: a shallow embedding of the scale
constructors (`linearScale`, `rasteredLinearScale`, `logarithmicScale`,
`noopScale`), the `clamped` decorator, and the shared cross-scale helpers
(`convertScaleTo`, `applyDeltaToScale`), together with proofs of the
documented laws (round trips, ratio bounds, clamping, rastering,
cross-scale conversion examples).

Numbers are modelled in exact arithmetic: a `LinearOrderedField`
(instantiated at `ℚ` for concrete evaluations) for the algebraic scales,
and `ℝ` for the logarithmic scale, whose definition needs `logb` and
real exponentiation.  `Math.round` is embedded as `jsRound`
(round to nearest, ties toward positive infinity, which is JavaScript's
`Math.round` semantics), and `Math.sign` as `jsSign`.
-/
import Mathlib

namespace Scales

variable {α : Type} [LinearOrderedField α]

/-- The functional core of a scale: bounds plus the two ratio-space
conversion functions.  These are the only fields of another scale that
`convertTo`/`applyDeltaTo` ever consult, which lets the `Scale` record
below close over them without a recursive occurrence. -/
structure ScaleCore (α : Type) where
  min : α
  max : α
  toRatio : α → α
  toAbsolute : α → α

/-- A full scale object: its core, plus the two cross-scale operations,
each stored as a closure exactly as in the source, so that the `clamped`
decorator can copy them unchanged (preserving their capture of the
original, unclamped `toRatio`/`toAbsolute`). -/
structure Scale (α : Type) where
  core : ScaleCore α
  convertTo : ScaleCore α → α → α
  applyDeltaTo : ScaleCore α → α → α → α

/-- JavaScript's `Math.round`: round to the nearest integer, ties toward
positive infinity, i.e. `⌊x + 1/2⌋`. -/
def jsRound [FloorRing α] (x : α) : α :=
  ((⌊x + 1 / 2⌋ : ℤ) : α)

/-- Helper `clampedToRatio`: clamp the ratio produced by `toRatio`
into `[0, 1]` (source: `Math.max(0.0, Math.min(toRatio(value), 1.0))`). -/
def clampedToRatio (value : α) (toRatio : α → α) : α :=
  max 0 (min (toRatio value) 1)

/-- Helper `clampedToAbsolute`: clamp the value produced by `toAbsolute`
into `[mn, mx]` (source: `Math.max(min, Math.min(toAbsolute(ratio), max))`). -/
def clampedToAbsolute (ratio mn mx : α) (toAbsolute : α → α) : α :=
  max mn (min (toAbsolute ratio) mx)

/-- The `clamped` decorator: copies every field of the scale, replacing
only the core's `toRatio`/`toAbsolute` with clamping versions.  The
`convertTo`/`applyDeltaTo` closures are copied unmodified, so they keep
using the original unclamped functions. -/
def clamped (scale : Scale α) : Scale α :=
  { scale with
    core :=
      { scale.core with
        toRatio := fun v => clampedToRatio v scale.core.toRatio
        toAbsolute := fun r =>
          clampedToAbsolute r scale.core.min scale.core.max
            scale.core.toAbsolute } }

/-- Shared helper `convertScaleTo`: produce this scale's ratio for `a`
and feed it to the other scale's `toAbsolute`. -/
def convertScaleTo (otherScale : ScaleCore α) (a : α) (toRatio : α → α) : α :=
  let ratio := toRatio a
  otherScale.toAbsolute ratio

/-- Shared helper `applyDeltaToScale`: the five-step delta application of
the source (other ratio → this absolute → add delta → this ratio →
other absolute). -/
def applyDeltaToScale (otherScale : ScaleCore α) (delta otherCurrent : α)
    (toAbsolute toRatio : α → α) : α :=
  let currentRatio := otherScale.toRatio otherCurrent
  let currentAbs := toAbsolute currentRatio
  let newAbs := currentAbs + delta
  let newRatio := toRatio newAbs
  otherScale.toAbsolute newRatio

/-- `linearScale(min, max, inverted)`: affine map between `[min, max]`
and ratio space, with the optional inversion flag. -/
def linearScale (mn mx : α) (inverted : Bool) : Scale α :=
  let range := mx - mn
  let toRatio := fun a =>
    let r := (a - mn) / range
    if inverted then 1 - r else r
  let toAbsolute := fun r =>
    if inverted then mn + (1 - r) * range else mn + r * range
  { core := { min := mn, max := mx, toRatio := toRatio, toAbsolute := toAbsolute }
    convertTo := fun otherScale a => convertScaleTo otherScale a toRatio
    applyDeltaTo := fun otherScale delta otherCurrent =>
      applyDeltaToScale otherScale delta otherCurrent toAbsolute toRatio }

/-- `rasteredLinearScale(min, max, stepSize, inverted)`: a linear scale
whose inputs (in `toRatio`) and outputs (in `toAbsolute`) are snapped to
the nearest multiple of `stepSize` via `Math.round(a / stepSize) * stepSize`. -/
def rasteredLinearScale [FloorRing α] (mn mx stepSize : α) (inverted : Bool) :
    Scale α :=
  let delegate := linearScale mn mx inverted
  let toRatio := fun a =>
    let rastered := jsRound (a / stepSize) * stepSize
    delegate.core.toRatio rastered
  let toAbsolute := fun r =>
    let a := delegate.core.toAbsolute r
    jsRound (a / stepSize) * stepSize
  { core := { min := mn, max := mx, toRatio := toRatio, toAbsolute := toAbsolute }
    convertTo := fun otherScale a => convertScaleTo otherScale a toRatio
    applyDeltaTo := fun otherScale delta otherCurrent =>
      applyDeltaToScale otherScale delta otherCurrent toAbsolute toRatio }

/-- JavaScript's `Math.sign` on real numbers: `-1`, `0` or `1`. -/
noncomputable def jsSign (x : ℝ) : ℝ :=
  if x < 0 then -1 else if 0 < x then 1 else 0

/-- `logarithmicScale(min, max, inverted)`: log₁₀ interpolation between
the sign-corrected endpoints.  When `sign < 0` the log-space minimum is
taken from the absolute `max` (the magnitude-smaller endpoint). -/
noncomputable def logarithmicScale (mn mx : ℝ) (inverted : Bool) : Scale ℝ :=
  let sign := jsSign mn
  let logMin := if sign < 0 then Real.logb 10 (sign * mx) else Real.logb 10 (sign * mn)
  let logMax := if sign < 0 then Real.logb 10 (sign * mn) else Real.logb 10 (sign * mx)
  let logRange := logMax - logMin
  let toRatio := fun a =>
    let logAbs := Real.logb 10 (sign * a)
    let r := (logAbs - logMin) / logRange
    if inverted then 1 - r else r
  let toAbsolute := fun r =>
    if inverted then
      let logAbs := logMin + (1 - r) * logRange
      sign * (10 : ℝ) ^ logAbs
    else
      let logAbs := logMin + r * logRange
      sign * (10 : ℝ) ^ logAbs
  { core := { min := mn, max := mx, toRatio := toRatio, toAbsolute := toAbsolute }
    convertTo := fun otherScale a => convertScaleTo otherScale a toRatio
    applyDeltaTo := fun otherScale delta otherCurrent =>
      applyDeltaToScale otherScale delta otherCurrent toAbsolute toRatio }

/-- The no-op scale's record type: the source's `noopScale()` returns an
object with only these four fields (no `min`/`max`). -/
structure NoopScale (α : Type) where
  toRatio : α → α
  toAbsolute : α → α
  convertTo : ScaleCore α → α → α
  applyDeltaTo : ScaleCore α → α → α → α

/-- `noopScale()`: identity passthrough; `convertTo` ignores the other
scale, `applyDeltaTo` returns `current + delta`. -/
def noopScale : NoopScale α :=
  { toRatio := fun v => v
    toAbsolute := fun v => v
    convertTo := fun _ v => v
    applyDeltaTo := fun _ d c => c + d }

/-- C2: for every scale produced by `linearScale`, `rasteredLinearScale`
or `logarithmicScale`, every other scale `B`, every `delta` and current
value `c`, `applyDeltaTo` computes exactly
`B.toAbsolute (A.toRatio (A.toAbsolute (B.toRatio c) + delta))` — the
five steps of the delta-application contract; in particular the
`linearScale 0 100` / `linearScale 0 200` example is an instance of the
formula. -/
theorem applyDeltaTo_five_steps :
    (∀ (mn mx : ℝ) (inv : Bool) (B : Scale ℝ) (delta c : ℝ),
      (linearScale mn mx inv).applyDeltaTo B.core delta c
        = B.core.toAbsolute ((linearScale mn mx inv).core.toRatio
            ((linearScale mn mx inv).core.toAbsolute (B.core.toRatio c) + delta)))
  ∧ (∀ (mn mx step : ℝ) (inv : Bool) (B : Scale ℝ) (delta c : ℝ),
      (rasteredLinearScale mn mx step inv).applyDeltaTo B.core delta c
        = B.core.toAbsolute ((rasteredLinearScale mn mx step inv).core.toRatio
            ((rasteredLinearScale mn mx step inv).core.toAbsolute
              (B.core.toRatio c) + delta)))
  ∧ (∀ (mn mx : ℝ) (inv : Bool) (B : Scale ℝ) (delta c : ℝ),
      (logarithmicScale mn mx inv).applyDeltaTo B.core delta c
        = B.core.toAbsolute ((logarithmicScale mn mx inv).core.toRatio
            ((logarithmicScale mn mx inv).core.toAbsolute
              (B.core.toRatio c) + delta)))
  ∧ (linearScale (0:ℝ) 100 false).applyDeltaTo (linearScale (0:ℝ) 200 false).core 10 50
      = (linearScale (0:ℝ) 200 false).core.toAbsolute
          ((linearScale (0:ℝ) 100 false).core.toRatio
            ((linearScale (0:ℝ) 100 false).core.toAbsolute
              ((linearScale (0:ℝ) 200 false).core.toRatio 50) + 10)) :=
  ⟨fun _ _ _ _ _ _ => rfl, fun _ _ _ _ _ _ _ => rfl,
    fun _ _ _ _ _ _ => rfl, rfl⟩

/-- C6: `clamped` leaves `min`, `max`, `convertTo` and `applyDeltaTo`
unchanged; the copied `convertTo` still computes through the original
unclamped functions, so converting an out-of-range value through a
clamped scale is not clamped (last conjunct: ratio 1.5 yields 150, not
100). -/
theorem clamped_preserves_frame (s : Scale α) :
    (clamped s).core.min = s.core.min
  ∧ (clamped s).core.max = s.core.max
  ∧ (∀ (other : ScaleCore α) (v : α),
      (clamped s).convertTo other v = s.convertTo other v)
  ∧ (∀ (other : ScaleCore α) (d c : α),
      (clamped s).applyDeltaTo other d c = s.applyDeltaTo other d c)
  ∧ (clamped (linearScale (0:α) 100 false)).convertTo
      (linearScale (0:α) 100 false).core 150 = 150 :=
  ⟨rfl, rfl, fun _ _ => rfl, fun _ _ _ => rfl, by
    norm_num [clamped, linearScale, convertScaleTo]⟩

/-- C9: the no-op scale is the identity: `toRatio` and `toAbsolute`
return their input, `convertTo` ignores the other scale entirely and
returns the input, and `applyDeltaTo` returns `current + delta`. -/
theorem noopScale_identity (x d c : α) (other : ScaleCore α) :
    (noopScale : NoopScale α).toRatio x = x
  ∧ (noopScale : NoopScale α).toAbsolute x = x
  ∧ (noopScale : NoopScale α).convertTo other x = x
  ∧ (noopScale : NoopScale α).applyDeltaTo other d c = c + d :=
  ⟨rfl, rfl, rfl, rfl⟩

/-- Round trip of a non-degenerate linear scale, ratio direction:
`toRatio (toAbsolute r) = r`. -/
theorem linearScale_toRatio_toAbsolute (mn mx : α) (inv : Bool) (h : mn ≠ mx)
    (r : α) :
    (linearScale mn mx inv).core.toRatio
      ((linearScale mn mx inv).core.toAbsolute r) = r := by
  have hr : mx - mn ≠ 0 := sub_ne_zero.mpr (Ne.symm h)
  cases inv <;> simp only [linearScale, Bool.false_eq_true, if_false, if_true] <;>
    field_simp

/-- Round trip of a non-degenerate linear scale, absolute direction:
`toAbsolute (toRatio x) = x`. -/
theorem linearScale_toAbsolute_toRatio (mn mx : α) (inv : Bool) (h : mn ≠ mx)
    (x : α) :
    (linearScale mn mx inv).core.toAbsolute
      ((linearScale mn mx inv).core.toRatio x) = x := by
  have hr : mx - mn ≠ 0 := sub_ne_zero.mpr (Ne.symm h)
  cases inv <;> simp only [linearScale, Bool.false_eq_true, if_false, if_true] <;>
    field_simp

/-- C3: for every `linearScale(min, max, inverted)` with `min < max`, both
values of `inverted`, and every `x ∈ [min, max]`, the round trip
`toAbsolute (toRatio x)` returns `x` exactly (in exact arithmetic). -/
theorem linear_roundtrip_exact (mn mx : α) (inv : Bool) (x : α)
    (h : mn < mx) (hx1 : mn ≤ x) (hx2 : x ≤ mx) :
    (linearScale mn mx inv).core.toAbsolute
      ((linearScale mn mx inv).core.toRatio x) = x :=
  linearScale_toAbsolute_toRatio mn mx inv (ne_of_lt h) x

/-- Witness for C3 at `linearScale 0 100`, `x = 50`, both inverted flags. -/
theorem linear_roundtrip_exact_witness :
    ((0:ℚ) < 100 ∧ (0:ℚ) ≤ 50 ∧ (50:ℚ) ≤ 100)
  ∧ (linearScale (0:ℚ) 100 false).core.toAbsolute
      ((linearScale (0:ℚ) 100 false).core.toRatio 50) = 50
  ∧ (linearScale (0:ℚ) 100 true).core.toAbsolute
      ((linearScale (0:ℚ) 100 true).core.toRatio 50) = 50 :=
  ⟨⟨by norm_num, by norm_num, by norm_num⟩,
    linear_roundtrip_exact 0 100 false 50 (by norm_num) (by norm_num) (by norm_num),
    linear_roundtrip_exact 0 100 true 50 (by norm_num) (by norm_num) (by norm_num)⟩

/-- C10: applying a zero delta through any pair of non-degenerate linear
scales is the identity on the current value: the two ratio round trips
cancel exactly in exact arithmetic. -/
theorem applyDeltaTo_zero_identity (mA MA mB MB : α) (iA iB : Bool)
    (hA : mA ≠ MA) (hB : mB ≠ MB) (c : α) :
    (linearScale mA MA iA).applyDeltaTo (linearScale mB MB iB).core 0 c = c := by
  have step : (linearScale mA MA iA).applyDeltaTo (linearScale mB MB iB).core 0 c
      = (linearScale mB MB iB).core.toAbsolute ((linearScale mA MA iA).core.toRatio
          ((linearScale mA MA iA).core.toAbsolute
            ((linearScale mB MB iB).core.toRatio c) + 0)) := rfl
  rw [step, add_zero, linearScale_toRatio_toAbsolute mA MA iA hA,
    linearScale_toAbsolute_toRatio mB MB iB hB]

/-- Witness for C10: `linearScale 0 100` applying delta `0` to value `37`
tracked in `linearScale 50 200 (inverted)` leaves it unchanged. -/
theorem applyDeltaTo_zero_identity_witness :
    ((0:ℚ) ≠ 100 ∧ (50:ℚ) ≠ 200)
  ∧ (linearScale (0:ℚ) 100 false).applyDeltaTo
      (linearScale (50:ℚ) 200 true).core 0 37 = 37 :=
  ⟨⟨by norm_num, by norm_num⟩,
    applyDeltaTo_zero_identity 0 100 50 200 false true
      (by norm_num) (by norm_num) 37⟩

/-- C5 counterexample: for `linearScale 100 0` (reversed bounds, which
the library permits), the clamped `toAbsolute` returns `100`, which does
not satisfy `≤ max` since `max = 0`; so the clamped output does not lie
in `[min, max]` for every scale. -/
theorem clamped_bounds_counterexample :
    (clamped (linearScale (100:ℚ) 0 false)).core.toAbsolute 0 = 100
  ∧ ¬ ((clamped (linearScale (100:ℚ) 0 false)).core.toAbsolute 0
        ≤ (linearScale (100:ℚ) 0 false).core.max) := by
  constructor <;> norm_num [clamped, clampedToAbsolute, linearScale]

/-- C5 (amended): for every scale — including reversed ones with
`min > max` — the clamped `toRatio` always lands in `[0, 1]`; the
clamped `toAbsolute` lands in `[min, max]` provided `min ≤ max`; and
`clamped (linearScale 0 100)` sends `150` to ratio `1`. -/
theorem clamped_bounds_amended (s : Scale α) (v r : α) :
    (0 ≤ (clamped s).core.toRatio v ∧ (clamped s).core.toRatio v ≤ 1)
  ∧ (s.core.min ≤ s.core.max →
      s.core.min ≤ (clamped s).core.toAbsolute r
      ∧ (clamped s).core.toAbsolute r ≤ s.core.max)
  ∧ (clamped (linearScale (0:α) 100 false)).core.toRatio 150 = 1 := by
  refine ⟨⟨le_max_left 0 _, max_le (by norm_num) (min_le_right _ 1)⟩,
    fun h => ⟨le_max_left _ _, max_le h (min_le_right _ _)⟩, ?_⟩
  norm_num [clamped, clampedToRatio, linearScale]

/-- Witness for C5 (amended): at `clamped (linearScale 0 100)` with
`v = 150` and `r = 3/2` (where `min ≤ max` is dischargeable), and the
unconditional `toRatio` bound at the reversed scale
`clamped (linearScale 100 0)`. -/
theorem clamped_bounds_amended_witness :
    ((0 ≤ (clamped (linearScale (0:ℚ) 100 false)).core.toRatio 150
        ∧ (clamped (linearScale (0:ℚ) 100 false)).core.toRatio 150 ≤ 1)
    ∧ ((linearScale (0:ℚ) 100 false).core.min
          ≤ (linearScale (0:ℚ) 100 false).core.max →
        (linearScale (0:ℚ) 100 false).core.min
          ≤ (clamped (linearScale (0:ℚ) 100 false)).core.toAbsolute (3/2)
        ∧ (clamped (linearScale (0:ℚ) 100 false)).core.toAbsolute (3/2)
          ≤ (linearScale (0:ℚ) 100 false).core.max)
    ∧ (clamped (linearScale (0:ℚ) 100 false)).core.toRatio 150 = 1)
  ∧ (0 ≤ (clamped (linearScale (100:ℚ) 0 false)).core.toRatio 150
      ∧ (clamped (linearScale (100:ℚ) 0 false)).core.toRatio 150 ≤ 1) :=
  ⟨clamped_bounds_amended (linearScale (0:ℚ) 100 false) 150 (3/2),
    (clamped_bounds_amended (linearScale (100:ℚ) 0 false) 150 (3/2)).1⟩

/-- C7: with a positive step size, `toAbsolute` of a rastered linear
scale always returns an exact integer multiple of `stepSize`, and the
snapping operation `a ↦ round(a / stepSize) * stepSize` is idempotent. -/
theorem rastered_multiple_idempotent [FloorRing α] (mn mx step : α)
    (inv : Bool) (r : α) (h : 0 < step) :
    (∃ k : ℤ, (rasteredLinearScale mn mx step inv).core.toAbsolute r = (k : α) * step)
  ∧ (∀ a : α, jsRound (jsRound (a / step) * step / step) * step
        = jsRound (a / step) * step) := by
  have hs : step ≠ 0 := ne_of_gt h
  have hhalf : ⌊(1:α) / 2⌋ = 0 :=
    Int.floor_eq_zero_iff.mpr (Set.mem_Ico.mpr ⟨by norm_num, by norm_num⟩)
  constructor
  · exact ⟨⌊(linearScale mn mx inv).core.toAbsolute r / step + 1 / 2⌋, rfl⟩
  · intro a
    have h1 : jsRound (a / step) * step / step = (jsRound (a / step) : α) :=
      mul_div_cancel_right₀ _ hs
    rw [h1]
    have h2 : jsRound (jsRound (a / step)) = jsRound (a / step) := by
      show ((⌊((⌊a / step + 1 / 2⌋ : ℤ) : α) + 1 / 2⌋ : ℤ) : α) = _
      rw [Int.floor_int_add, hhalf]
      simp [jsRound]
    rw [h2]

/-- Witness for C7 at `rasteredLinearScale 0 10 2` with ratio `1/3`. -/
theorem rastered_multiple_idempotent_witness :
    (0:ℚ) < 2
  ∧ ((∃ k : ℤ, (rasteredLinearScale (0:ℚ) 10 2 false).core.toAbsolute (1/3)
        = (k : ℚ) * 2)
    ∧ (∀ a : ℚ, jsRound (jsRound (a / 2) * 2 / 2) * 2 = jsRound (a / 2) * 2)) :=
  ⟨by norm_num, rastered_multiple_idempotent 0 10 2 false (1/3) (by norm_num)⟩

/-- C8 counterexample: the snapping used by `rasteredLinearScale` does
not resolve ties away from zero: with `stepSize = 1`, the input `-2.5`
snaps to `-2` (ratio `-1/5` on the `0..10` delegate), not to `-3` (which
would give ratio `-3/10`). -/
theorem raster_ties_counterexample :
    (rasteredLinearScale (0:ℚ) 10 1 false).core.toRatio (-5/2) = -1/5
  ∧ (rasteredLinearScale (0:ℚ) 10 1 false).core.toRatio (-3) = -3/10
  ∧ ((-1:ℚ)/5) ≠ -3/10 := by
  refine ⟨?_, ?_, by norm_num⟩ <;>
    norm_num [rasteredLinearScale, linearScale, jsRound]

/-- C8 (amended): the snapping primitive rounds to the nearest multiple
of `stepSize` with ties resolved toward positive infinity (JavaScript
`Math.round` semantics): an input exactly halfway between `k·step` and
`(k+1)·step` snaps to the upper multiple `(k+1)·step`. -/
theorem raster_ties_toward_posinf [FloorRing α] (mn mx step a : α)
    (inv : Bool) (k : ℤ) (hstep : 0 < step) (h : a / step = (k : α) + 1/2) :
    (rasteredLinearScale mn mx step inv).core.toRatio a
      = (linearScale mn mx inv).core.toRatio (((k + 1 : ℤ) : α) * step) := by
  have hr : jsRound (a / step) = ((k + 1 : ℤ) : α) := by
    rw [jsRound, h]
    have hcast : (k : α) + 1/2 + 1/2 = ((k + 1 : ℤ) : α) := by push_cast; ring
    rw [hcast, Int.floor_intCast]
  show (linearScale mn mx inv).core.toRatio (jsRound (a / step) * step)
      = (linearScale mn mx inv).core.toRatio (((k + 1 : ℤ) : α) * step)
  rw [hr]

/-- Witness for C8 (amended): step `1`, input `-5/2 = -3 + 1/2`, which
snaps to `-2`. -/
theorem raster_ties_toward_posinf_witness :
    ((0:ℚ) < 1 ∧ (-5:ℚ)/2 / 1 = ((-3:ℤ) : ℚ) + 1/2)
  ∧ (rasteredLinearScale (0:ℚ) 10 1 false).core.toRatio (-5/2)
      = (linearScale (0:ℚ) 10 false).core.toRatio (((-3 + 1 : ℤ) : ℚ) * 1) :=
  ⟨⟨by norm_num, by norm_num⟩,
    raster_ties_toward_posinf 0 10 1 (-5/2) false (-3) (by norm_num) (by norm_num)⟩

/-- `Math.sign` of a negative number is `-1`. -/
theorem jsSign_of_neg {x : ℝ} (h : x < 0) : jsSign x = -1 := by
  simp only [jsSign]
  rw [if_pos h]

/-- `Math.sign` of a positive number is `1`. -/
theorem jsSign_of_pos {x : ℝ} (h : 0 < x) : jsSign x = 1 := by
  simp only [jsSign]
  rw [if_neg (not_lt.mpr h.le), if_pos h]

/-- `log₁₀` is injective on positive reals. -/
theorem logb10_ne_of_ne {x y : ℝ} (hx : 0 < x) (hy : 0 < y) (h : x ≠ y) :
    Real.logb 10 x ≠ Real.logb 10 y := by
  rcases lt_or_gt_of_ne h with hlt | hgt
  · exact ne_of_lt (Real.logb_lt_logb (by norm_num) hx hlt)
  · exact ne_of_gt (Real.logb_lt_logb (by norm_num) hy hgt)

/-- `log₁₀ 1000 = 3`. -/
theorem logb10_1000 : Real.logb 10 1000 = 3 := by
  rw [show (1000:ℝ) = 10 ^ (3:ℕ) by norm_num, Real.logb_pow,
    Real.logb_self_eq_one (by norm_num)]
  norm_num

/-- Closed form of `toAbsolute` for `logarithmicScale (-1000) (-1)`:
`sign = -1`, `logMin = log₁₀ 1 = 0`, `logRange = log₁₀ 1000 = 3`, hence
ratio `r` maps to `-(10 ^ (3r))`. -/
theorem logNeg_toAbsolute (r : ℝ) :
    (logarithmicScale (-1000) (-1) false).core.toAbsolute r
      = -(10:ℝ) ^ (r * 3) := by
  have hsign : jsSign (-1000) = -1 := jsSign_of_neg (by norm_num)
  simp only [logarithmicScale, hsign]
  norm_num [logb10_1000]

/-- Closed form of `toRatio` for `logarithmicScale (-1000) (-1)`:
absolute value `a` maps to `log₁₀(-a) / 3`. -/
theorem logNeg_toRatio (a : ℝ) :
    (logarithmicScale (-1000) (-1) false).core.toRatio a
      = Real.logb 10 (-a) / 3 := by
  have hsign : jsSign (-1000) = -1 := jsSign_of_neg (by norm_num)
  simp only [logarithmicScale, hsign]
  norm_num [logb10_1000]

/-- C1 counterexample: `linearScale(0,100).convertTo(logarithmicScale(-1000,-1), 0)`
evaluates to `-1`, not `-1000`: for a negative-sign logarithmic scale the
ratio-0 end is the magnitude-smaller endpoint. -/
theorem cross_scale_counterexample :
    (linearScale (0:ℝ) 100 false).convertTo
      (logarithmicScale (-1000) (-1) false).core 0 = -1
  ∧ ((-1:ℝ)) ≠ -1000 := by
  constructor
  · have key : (linearScale (0:ℝ) 100 false).convertTo
        (logarithmicScale (-1000) (-1) false).core 0
        = (logarithmicScale (-1000) (-1) false).core.toAbsolute
            ((0 - 0) / (100 - 0)) := rfl
    rw [key, logNeg_toAbsolute]
    norm_num
  · norm_num

/-- C1 (amended): with `linear = linearScale(0,100)` and
`log = logarithmicScale(-1000,-1)`, cross-scale conversion satisfies
`linear.convertTo(log, 0) = -1`, `linear.convertTo(log, 100) = -1000`,
and `linear.convertTo(log, 50) = -10^1.5` — the endpoint images are the
reverse of the claimed ones, the midpoint matches. -/
theorem cross_scale_example_amended :
    (linearScale (0:ℝ) 100 false).convertTo
      (logarithmicScale (-1000) (-1) false).core 0 = -1
  ∧ (linearScale (0:ℝ) 100 false).convertTo
      (logarithmicScale (-1000) (-1) false).core 100 = -1000
  ∧ (linearScale (0:ℝ) 100 false).convertTo
      (logarithmicScale (-1000) (-1) false).core 50 = -(10:ℝ) ^ ((3:ℝ) / 2) := by
  have key : ∀ v : ℝ, (linearScale (0:ℝ) 100 false).convertTo
      (logarithmicScale (-1000) (-1) false).core v
      = (logarithmicScale (-1000) (-1) false).core.toAbsolute
          ((v - 0) / (100 - 0)) :=
    fun _ => rfl
  refine ⟨?_, ?_, ?_⟩ <;> rw [key, logNeg_toAbsolute]
  · norm_num
  · rw [show ((100:ℝ) - 0) / (100 - 0) * 3 = ((3:ℕ) : ℝ) by norm_num,
      Real.rpow_natCast]
    norm_num
  · norm_num

/-- C4 counterexample: for the non-inverted negative-sign scale
`logarithmicScale(-1000,-1)`, `toRatio(min)` is `1`, not `0`. -/
theorem ratio_bounds_counterexample :
    (logarithmicScale (-1000) (-1) false).core.toRatio (-1000) = 1
  ∧ (1:ℝ) ≠ 0 := by
  constructor
  · rw [logNeg_toRatio]
    norm_num [logb10_1000]
  · norm_num

/-- C4 (amended): for a non-degenerate `linearScale`, and for a
non-degenerate `logarithmicScale` with positive endpoints, `toRatio`
sends `min ↦ 0` and `max ↦ 1` (swapped when inverted); for a
`logarithmicScale` with negative endpoints the orientation is reversed:
`min ↦ 1` and `max ↦ 0` when not inverted. -/
theorem ratio_bounds_amended (mn mx : ℝ) (inv : Bool) (h : mn ≠ mx) :
    ((linearScale mn mx inv).core.toRatio mn = (if inv then 1 else 0)
      ∧ (linearScale mn mx inv).core.toRatio mx = (if inv then 0 else 1))
  ∧ (0 < mn → 0 < mx →
      ((logarithmicScale mn mx inv).core.toRatio mn = (if inv then 1 else 0)
        ∧ (logarithmicScale mn mx inv).core.toRatio mx = (if inv then 0 else 1)))
  ∧ (mn < 0 → mx < 0 →
      ((logarithmicScale mn mx inv).core.toRatio mn = (if inv then 0 else 1)
        ∧ (logarithmicScale mn mx inv).core.toRatio mx = (if inv then 1 else 0))) := by
  have hr : mx - mn ≠ 0 := sub_ne_zero.mpr (Ne.symm h)
  refine ⟨⟨?_, ?_⟩, fun hmn hmx => ⟨?_, ?_⟩, fun hmn hmx => ⟨?_, ?_⟩⟩
  · cases inv <;> simp [linearScale]
  · cases inv <;> simp [linearScale, div_self hr]
  · have hs := jsSign_of_pos hmn
    cases inv <;> norm_num [logarithmicScale, hs]
  · have hs := jsSign_of_pos hmn
    have hne : Real.logb 10 mx - Real.logb 10 mn ≠ 0 :=
      sub_ne_zero.mpr (logb10_ne_of_ne hmx hmn (Ne.symm h))
    cases inv <;> norm_num [logarithmicScale, hs, div_self hne]
  · have hs := jsSign_of_neg hmn
    have hne : Real.logb 10 mn - Real.logb 10 mx ≠ 0 := by
      have hne0 := logb10_ne_of_ne (neg_pos.mpr hmn) (neg_pos.mpr hmx)
        (fun he => h (neg_inj.mp he))
      rw [Real.logb_neg_eq_logb, Real.logb_neg_eq_logb] at hne0
      exact sub_ne_zero.mpr hne0
    cases inv <;> norm_num [logarithmicScale, hs, div_self hne]
  · have hs := jsSign_of_neg hmn
    cases inv <;> norm_num [logarithmicScale, hs]

/-- Witness for C4 (amended) at `min = 2`, `max = 20`, not inverted. -/
theorem ratio_bounds_amended_witness :
    (2:ℝ) ≠ 20
  ∧ (((linearScale (2:ℝ) 20 false).core.toRatio 2 = (if false then 1 else 0)
      ∧ (linearScale (2:ℝ) 20 false).core.toRatio 20 = (if false then 0 else 1))
    ∧ ((0:ℝ) < 2 → (0:ℝ) < 20 →
        ((logarithmicScale 2 20 false).core.toRatio 2 = (if false then 1 else 0)
          ∧ (logarithmicScale 2 20 false).core.toRatio 20 = (if false then 0 else 1)))
    ∧ ((2:ℝ) < 0 → (20:ℝ) < 0 →
        ((logarithmicScale 2 20 false).core.toRatio 2 = (if false then 0 else 1)
          ∧ (logarithmicScale 2 20 false).core.toRatio 20 = (if false then 1 else 0)))) :=
  ⟨by norm_num, ratio_bounds_amended 2 20 false (by norm_num)⟩

end Scales
